import Mathlib

/-!
Verification of the map-app repository's real-time location-broadcast relay
(src/backend/server.js and src/unnamed/part_000) and of the frontend
route-selection client (src/frontend/src/App.jsx), against its
natural-language specification.

The backend is an event-loop server (Node.js/socket.io): connections are
handled one event at a time, so the server is embedded as a sequential
step function over an explicit server state.  `socket.broadcast.emit`
delivers an event to every currently connected socket except the sender;
the delivery log (`outbox`) records each delivery as
(recipient id, event name, payload) in emission order.
-/

/-- A JSON-like value, the type of socket.io event payloads
(JavaScript numbers are modelled as rationals). -/
inductive JsonValue where
  | null : JsonValue
  | bool : Bool → JsonValue
  | num : ℚ → JsonValue
  | str : String → JsonValue
  | arr : List JsonValue → JsonValue
  | obj : List (String × JsonValue) → JsonValue

/-- The server's state: the set of currently connected socket ids
(socket.io's namespace membership) and the log of all outbound
deliveries so far, oldest first.  Each delivery is
(recipient socket id, event name, payload). -/
structure ServerState where
  registry : List ℕ
  outbox : List (ℕ × String × JsonValue)

/-- `socket.broadcast.emit(event, payload)`: deliver `(event, payload)` to
every connected socket except the origin, in registry order. -/
def broadcastEmit (s : ServerState) (origin : ℕ) (event : String)
    (payload : JsonValue) : ServerState :=
  ⟨s.registry,
    s.outbox ++
      (s.registry.filter (· ≠ origin)).map (fun r => (r, event, payload))⟩

/-- The `driverLocation` handler (src/backend/server.js lines 19-23):
`socket.on("driverLocation", (data) => { console.log(...);
socket.broadcast.emit("driverLocationUpdate", data); })`.
The payload is relayed unchanged; no validation is performed. -/
def driverLocationHandler (s : ServerState) (origin : ℕ)
    (data : JsonValue) : ServerState :=
  broadcastEmit s origin ("driverLocationUpdate") data

/-- `io.on("connection", ...)`: socket.io registers the new socket. -/
def onConnection (s : ServerState) (id : ℕ) : ServerState :=
  ⟨s.registry ++ [id], s.outbox⟩

/-- The `disconnect` handler (src/backend/server.js lines 25-27): the
handler itself only logs; socket.io removes the socket from the
namespace, so it stops receiving broadcasts. -/
def onDisconnect (s : ServerState) (id : ℕ) : ServerState :=
  ⟨s.registry.filter (· ≠ id), s.outbox⟩

/-- An input event processed by the server's event loop. -/
inductive ServerInput where
  | connect : ℕ → ServerInput
  | disconnect : ℕ → ServerInput
  | driverLocation : ℕ → JsonValue → ServerInput

/-- One step of the server's (single-threaded) event loop. -/
def serverStep (s : ServerState) : ServerInput → ServerState
  | ServerInput.connect id => onConnection s id
  | ServerInput.disconnect id => onDisconnect s id
  | ServerInput.driverLocation origin d => driverLocationHandler s origin d

/-- Run the event loop over a list of inputs, in order. -/
def serverRun (s : ServerState) (inputs : List ServerInput) : ServerState :=
  inputs.foldl serverStep s

/-- The deliveries appended to the outbox by one `driverLocation` event. -/
def newDeliveries (s : ServerState) (origin : ℕ) (data : JsonValue) :
    List (ℕ × String × JsonValue) :=
  (driverLocationHandler s origin data).outbox.drop s.outbox.length

/-- The payloads delivered to recipient `r`, oldest first. -/
def deliveriesTo (s : ServerState) (r : ℕ) : List (String × JsonValue) :=
  (s.outbox.filter (fun e => e.1 = r)).map (fun e => e.2)

lemma newDeliveries_eq (s : ServerState) (origin : ℕ) (data : JsonValue) :
    newDeliveries s origin data =
      (s.registry.filter (· ≠ origin)).map
        (fun r => (r, "driverLocationUpdate", data)) := by
  simp [newDeliveries, driverLocationHandler, broadcastEmit]

lemma length_filter_ne_of_nodup {l : List ℕ} {x : ℕ}
    (hnd : l.Nodup) (hx : x ∈ l) :
    (l.filter (· ≠ x)).length = l.length - 1 := by
  induction l with
  | nil => cases hx
  | cons a t ih =>
    rcases List.mem_cons.mp hx with rfl | hxt
    · have hax : t.filter (· ≠ x) = t := by
        rw [List.filter_eq_self]
        intro b hb
        have hbx : b ≠ x := fun h => (List.nodup_cons.mp hnd).1 (h ▸ hb)
        simp [hbx]
      rw [List.filter_cons_of_neg (by simp), hax]
      simp only [List.length_cons]
      omega
    · have hna : a ≠ x := fun h => (List.nodup_cons.mp hnd).1 (h ▸ hxt)
      have hrec := ih (List.nodup_cons.mp hnd).2 hxt
      have hlen : 1 ≤ t.length :=
        List.length_pos.mpr (List.ne_nil_of_mem hxt)
      rw [List.filter_cons_of_pos (by simp [hna])]
      simp only [List.length_cons, hrec]
      omega

/-- Claim C1. When client `x` emits a `driverLocation` event, the resulting
`driverLocationUpdate` deliveries go to exactly the other connected
clients: the recipient list is the registry with `x` removed, `x` itself
receives nothing, and with `N` distinct connected clients the number of
deliveries is `N - 1`. -/
theorem broadcast_excludes_origin (s : ServerState) (x : ℕ) (d : JsonValue)
    (hnd : s.registry.Nodup) (hx : x ∈ s.registry) :
    (newDeliveries s x d).map Prod.fst = s.registry.filter (· ≠ x) ∧
    (∀ e ∈ newDeliveries s x d, e.1 ≠ x) ∧
    (newDeliveries s x d).length = s.registry.length - 1 := by
  rw [newDeliveries_eq]
  refine ⟨?_, ?_, ?_⟩
  · rw [List.map_map]
    have hcomp :
        (Prod.fst ∘ fun r : ℕ => (r, ("driverLocationUpdate", d))) = id := rfl
    rw [hcomp, List.map_id]
  · intro e he
    simp only [List.mem_map, List.mem_filter] at he
    obtain ⟨r, ⟨_, hr⟩, rfl⟩ := he
    simpa using hr
  · rw [List.length_map]
    exact length_filter_ne_of_nodup hnd hx

/-- Witness for C1 at a concrete state: registry `[0, 1, 2]`, origin `1`. -/
theorem broadcast_excludes_origin_witness :
    ([0, 1, 2] : List ℕ).Nodup ∧ (1 : ℕ) ∈ ([0, 1, 2] : List ℕ) ∧
    ((newDeliveries ⟨[0, 1, 2], []⟩ 1 (JsonValue.num 5)).map Prod.fst =
        ([0, 1, 2] : List ℕ).filter (· ≠ 1) ∧
      (∀ e ∈ newDeliveries ⟨[0, 1, 2], []⟩ 1 (JsonValue.num 5), e.1 ≠ 1) ∧
      (newDeliveries ⟨[0, 1, 2], []⟩ 1 (JsonValue.num 5)).length =
        ([0, 1, 2] : List ℕ).length - 1) :=
  ⟨by decide, by decide,
    broadcast_excludes_origin ⟨[0, 1, 2], []⟩ 1 (JsonValue.num 5)
      (by decide) (by decide)⟩

/-- A malformed inbound payload: latitude 200, outside the valid
latitude range [-90, 90]. -/
def latitude200Payload : JsonValue :=
  JsonValue.obj [("lat", JsonValue.num 200), ("lng", JsonValue.num 77)]

/-- Claim C2, counterexample. The driverLocation handler performs no
validation: the out-of-range payload {lat: 200, lng: 77} sent by client 0
is handed to the broadcast dispatch and delivered to client 1, so an
invalid payload does reach the dispatcher and no ValidationError arises. -/
theorem invalid_payload_reaches_dispatcher :
    newDeliveries ⟨[0, 1], []⟩ 0 latitude200Payload =
      [(1, "driverLocationUpdate", latitude200Payload)] := by
  rw [newDeliveries_eq]
  rfl

/-- Claim C2, amended. The server performs no validation at all: every
inbound payload, whatever its content, is passed to the broadcast
dispatch and produces exactly one delivery per other connected client;
no rejection path exists. -/
theorem all_payloads_dispatched (s : ServerState) (x : ℕ) (d : JsonValue) :
    (newDeliveries s x d).length = (s.registry.filter (· ≠ x)).length := by
  rw [newDeliveries_eq, List.length_map]

/-- Claim C6. Relaying is the identity on the payload: every delivery
produced by a driverLocation event carries the event name
"driverLocationUpdate" and a payload identical to the inbound payload,
auxiliary fields included, with no transformation. -/
theorem relay_preserves_payload (s : ServerState) (x : ℕ) (d : JsonValue) :
    ∀ e ∈ newDeliveries s x d,
      e.2.1 = "driverLocationUpdate" ∧ e.2.2 = d := by
  rw [newDeliveries_eq]
  intro e he
  simp only [List.mem_map] at he
  obtain ⟨r, _, rfl⟩ := he
  exact ⟨rfl, rfl⟩

/-- Witness for C6: with registry `[0, 1]` and origin `0`, the single
delivery of payload `num 7` goes out unchanged. -/
theorem relay_preserves_payload_witness :
    ((1, "driverLocationUpdate", JsonValue.num 7) : ℕ × String × JsonValue) ∈
        newDeliveries ⟨[0, 1], []⟩ 0 (JsonValue.num 7) ∧
    ((1, "driverLocationUpdate", JsonValue.num 7) :
        ℕ × String × JsonValue).2.1 = "driverLocationUpdate" ∧
    ((1, "driverLocationUpdate", JsonValue.num 7) :
        ℕ × String × JsonValue).2.2 = JsonValue.num 7 :=
  have hm : ((1, "driverLocationUpdate", JsonValue.num 7) :
      ℕ × String × JsonValue) ∈
      newDeliveries ⟨[0, 1], []⟩ 0 (JsonValue.num 7) := by
    rw [show newDeliveries ⟨[0, 1], []⟩ 0 (JsonValue.num 7) =
        [(1, "driverLocationUpdate", JsonValue.num 7)] from by
      rw [newDeliveries_eq]; rfl]
    exact List.mem_cons_self _ _
  ⟨hm, relay_preserves_payload ⟨[0, 1], []⟩ 0 (JsonValue.num 7) _ hm⟩

/-- An exception raised in a connection's handling context. -/
inductive HandlerError where
  | thrown : String → HandlerError

/-- The driverLocation handler as fallible code.  Its body —
`console.log(...)` followed by `socket.broadcast.emit(...)` — contains no
operation that can throw for any argument value, so the translation has
no error path. -/
def driverLocationHandlerExc (s : ServerState) (origin : ℕ)
    (data : JsonValue) : Except HandlerError ServerState :=
  Except.ok (driverLocationHandler s origin data)

/-- Claim C7. Handling an arbitrary untrusted payload never raises: the
handler returns normally on every input, and the registry is untouched,
so no unrelated connection is terminated by one client's input. -/
theorem untrusted_input_never_crashes (s : ServerState) (x : ℕ)
    (d : JsonValue) :
    ∃ s' : ServerState, driverLocationHandlerExc s x d = Except.ok s' ∧
      s'.registry = s.registry ∧ ∃ t, s'.outbox = s.outbox ++ t :=
  ⟨driverLocationHandler s x d, rfl, rfl,
    (driverLocationHandler ⟨s.registry, []⟩ x d).outbox, rfl⟩

/-- The listening port in src/backend/server.js line 30:
`const PORT = 5001`, a constant that takes no account of the
environment. -/
def PORT_serverJs (_envPORT : Option String) : ℕ := 5001

/-- The listening port in src/unnamed/part_000 line 29:
`const PORT = process.env.PORT || 5001`.  An environment value is a
string; JavaScript `||` falls back exactly when the left operand is falsy
(unset or the empty string), so the port is either the environment string
or the numeric default 5001. -/
def PORT_part000 (envPORT : Option String) : String ⊕ ℕ :=
  match envPORT with
  | some s => if s = "" then Sum.inr 5001 else Sum.inl s
  | none => Sum.inr 5001

/-- Claim C8, counterexample. With the environment setting "8080" — which
does override the port of src/unnamed/part_000 — src/backend/server.js
still listens on 5001: its port is not overridable. -/
theorem port_not_overridable_serverJs :
    PORT_serverJs (some ("8080")) = 5001 ∧ PORT_serverJs none = 5001 ∧
    PORT_part000 (some ("8080")) = Sum.inl ("8080") :=
  ⟨rfl, rfl, rfl⟩

/-- Claim C8, amended. src/unnamed/part_000 listens on the port given by the
environment-style setting when it is set and nonempty, falling back to the
fixed default 5001 when unset or empty; src/backend/server.js listens on
the fixed port 5001 regardless of any environment setting. -/
theorem port_configuration (env : Option String) :
    PORT_serverJs env = 5001 ∧
    PORT_part000 none = Sum.inr 5001 ∧
    PORT_part000 (some ("")) = Sum.inr 5001 ∧
    (∀ s : String, s ≠ "" → PORT_part000 (some s) = Sum.inl s) := by
  refine ⟨rfl, rfl, rfl, ?_⟩
  intro s hs
  simp [PORT_part000, hs]

/-- Witness for C8 (amended) at the concrete setting "3000". -/
theorem port_configuration_witness :
    ("3000" : String) ≠ "" ∧ PORT_part000 (some ("3000")) = Sum.inl ("3000") :=
  ⟨by decide, (port_configuration (some ("3000"))).2.2.2 ("3000") (by decide)⟩

/-- Modelled from the spec: the per-recipient bounded outbound queue of
the Broadcast Dispatcher.  The dispatch internals are not under src (the
handler delegates delivery to the socket library), and spec section 9
flags the bounding policy as a hardening choice with no counterpart in
the source; section 5 specifies a bounded queue per recipient, a
drop-oldest policy on overflow, and a drop counter.  `items` holds the
pending events, oldest first. -/
structure BoundedQueue where
  capacity : ℕ
  items : List JsonValue
  dropCount : ℕ

/-- Modelled from the spec: enqueue one event onto a recipient's bounded
queue; when the queue is full, drop the oldest pending event in favor of
the newest and increment the drop counter (spec section 5). -/
def enqueueEvent (q : BoundedQueue) (e : JsonValue) : BoundedQueue :=
  if q.items.length < q.capacity then
    ⟨q.capacity, q.items ++ [e], q.dropCount⟩
  else
    ⟨q.capacity, q.items.tail ++ [e], q.dropCount + 1⟩

/-- Claim C3. For a recipient queue of positive capacity that respects its
bound, enqueueing keeps the queue bounded, never decreases the drop
counter, always retains the newest event at the back (so a flooded
recipient observes the most recent event), and on a full queue drops
exactly the oldest pending event and increments the drop counter by
one. -/
theorem bounded_queue_drop_oldest (q : BoundedQueue) (e : JsonValue)
    (hcap : 1 ≤ q.capacity) (hlen : q.items.length ≤ q.capacity) :
    (enqueueEvent q e).items.length ≤ q.capacity ∧
    (enqueueEvent q e).capacity = q.capacity ∧
    q.dropCount ≤ (enqueueEvent q e).dropCount ∧
    (enqueueEvent q e).items.getLast? = some e ∧
    (q.items.length = q.capacity →
      (enqueueEvent q e).items = q.items.tail ++ [e] ∧
      (enqueueEvent q e).dropCount = q.dropCount + 1) := by
  unfold enqueueEvent
  by_cases h : q.items.length < q.capacity
  · rw [if_pos h]
    refine ⟨?_, rfl, le_refl _, ?_, ?_⟩
    · simp only [List.length_append, List.length_singleton]
      omega
    · exact List.getLast?_concat _
    · intro hfull
      omega
  · rw [if_neg h]
    refine ⟨?_, rfl, Nat.le_succ _, ?_, fun _ => ⟨rfl, rfl⟩⟩
    · have htail : q.items.tail.length = q.items.length - 1 :=
        List.length_tail _
      simp only [List.length_append, List.length_singleton, htail]
      omega
    · exact List.getLast?_concat _

/-- Witness for C3 at a full queue of capacity 2 holding two stale
events: the oldest is dropped, the newest event survives at the back,
and the drop counter rises from 0 to 1. -/
theorem bounded_queue_drop_oldest_witness :
    1 ≤ 2 ∧ ([JsonValue.null, JsonValue.bool true] : List JsonValue).length ≤ 2 ∧
    ((enqueueEvent ⟨2, [JsonValue.null, JsonValue.bool true], 0⟩
        (JsonValue.num 9)).items.length ≤ 2 ∧
      (enqueueEvent ⟨2, [JsonValue.null, JsonValue.bool true], 0⟩
        (JsonValue.num 9)).capacity = 2 ∧
      0 ≤ (enqueueEvent ⟨2, [JsonValue.null, JsonValue.bool true], 0⟩
        (JsonValue.num 9)).dropCount ∧
      (enqueueEvent ⟨2, [JsonValue.null, JsonValue.bool true], 0⟩
        (JsonValue.num 9)).items.getLast? = some (JsonValue.num 9) ∧
      (([JsonValue.null, JsonValue.bool true] : List JsonValue).length = 2 →
        (enqueueEvent ⟨2, [JsonValue.null, JsonValue.bool true], 0⟩
            (JsonValue.num 9)).items =
          ([JsonValue.null, JsonValue.bool true] : List JsonValue).tail ++
            [JsonValue.num 9] ∧
        (enqueueEvent ⟨2, [JsonValue.null, JsonValue.bool true], 0⟩
            (JsonValue.num 9)).dropCount = 0 + 1)) :=
  ⟨by decide, by simp,
    bounded_queue_drop_oldest ⟨2, [JsonValue.null, JsonValue.bool true], 0⟩
      (JsonValue.num 9) (by decide) (by simp)⟩

/-- A leaflet latitude/longitude pair (`e.latlng`, or a selected search
result). -/
structure LatLng where
  lat : ℚ
  lng : ℚ

/-- The route summary displayed by the UI: distance in kilometres and
duration in minutes, as computed in the fetch handler. -/
structure RouteInfo where
  distance : ℚ
  duration : ℤ

/-- The state of the App component (src/frontend/src/App.jsx lines
57-62): pickup, drop, route, info, isLoadingRoute. -/
structure AppState where
  pickup : Option LatLng
  drop : Option LatLng
  route : List LatLng
  info : Option RouteInfo
  isLoadingRoute : Bool

/-- The route-fetching effect (App.jsx lines 64-97) as a function from
the state at effect time to the updated state paired with whether a route
fetch was initiated: when both `pickup` and `drop` are set the effect
starts a fetch (synchronously setting `isLoadingRoute` to true);
otherwise it resets `route` to the empty list and `info` to null.
`null` is the only falsy value these states take, so JavaScript
`if (pickup && drop)` is the test that both options are set. -/
def routeEffect (st : AppState) : AppState × Bool :=
  match st.pickup, st.drop with
  | some _, some _ =>
    (⟨st.pickup, st.drop, st.route, st.info, true⟩, true)
  | _, _ =>
    (⟨st.pickup, st.drop, [], none, st.isLoadingRoute⟩, false)

/-- Claim C9. Whenever pickup or drop is unset, the effect resets the route
to the empty list and the info to null and initiates no fetch; a fetch is
initiated exactly when both pickup and drop are set, so a non-empty route
is only ever produced while both endpoints exist. -/
theorem route_reset_when_endpoint_unset (st : AppState) :
    ((st.pickup = none ∨ st.drop = none) →
      (routeEffect st).1.route = [] ∧ (routeEffect st).1.info = none ∧
      (routeEffect st).2 = false) ∧
    ((routeEffect st).2 = true ↔ st.pickup.isSome ∧ st.drop.isSome) := by
  obtain ⟨p, d, route, info, loading⟩ := st
  cases p <;> cases d <;> simp [routeEffect]

/-- Witness for C9 at a state with a stale route and no drop endpoint:
the effect clears the route and info and fetches nothing. -/
theorem route_reset_when_endpoint_unset_witness :
    ((some ⟨1, 2⟩ : Option LatLng) = none ∨ (none : Option LatLng) = none) ∧
    ((routeEffect ⟨some ⟨1, 2⟩, none, [⟨3, 4⟩], some ⟨5, 6⟩, false⟩).1.route
        = [] ∧
      (routeEffect ⟨some ⟨1, 2⟩, none, [⟨3, 4⟩], some ⟨5, 6⟩, false⟩).1.info
        = none ∧
      (routeEffect ⟨some ⟨1, 2⟩, none, [⟨3, 4⟩], some ⟨5, 6⟩, false⟩).2
        = false) :=
  ⟨Or.inr rfl,
    (route_reset_when_endpoint_unset
        ⟨some ⟨1, 2⟩, none, [⟨3, 4⟩], some ⟨5, 6⟩, false⟩).1 (Or.inr rfl)⟩

/-- The map-click handler of LocationMarkers (App.jsx lines 18-27):
`if (!pickup) setPickup(e.latlng); else if (!drop) setDrop(e.latlng);
else { setPickup(e.latlng); setDrop(null); }`, returning the new
(pickup, drop) pair. -/
def mapClick (pickup drop : Option LatLng) (p : LatLng) :
    Option LatLng × Option LatLng :=
  if pickup.isNone then (some p, drop)
  else if drop.isNone then (pickup, some p)
  else (some p, none)

/-- Claim C10. The click state machine: with pickup unset a click sets
pickup to the clicked point; with pickup set and drop unset it sets drop;
with both set it replaces pickup with the clicked point and resets drop to
null, restarting the selection. -/
theorem mapClick_state_machine (pickup drop : Option LatLng) (p : LatLng) :
    (pickup = none → mapClick pickup drop p = (some p, drop)) ∧
    (pickup.isSome → drop = none → mapClick pickup drop p = (pickup, some p)) ∧
    (pickup.isSome → drop.isSome → mapClick pickup drop p = (some p, none)) := by
  cases pickup <;> cases drop <;> simp [mapClick]

/-- Witness for C10: a click with both endpoints set restarts the
selection at the clicked point. -/
theorem mapClick_state_machine_witness :
    (some ⟨1, 2⟩ : Option LatLng).isSome ∧
    (some ⟨3, 4⟩ : Option LatLng).isSome ∧
    mapClick (some ⟨1, 2⟩) (some ⟨3, 4⟩) ⟨5, 6⟩ = (some ⟨5, 6⟩, none) :=
  ⟨rfl, rfl,
    (mapClick_state_machine (some ⟨1, 2⟩) (some ⟨3, 4⟩) ⟨5, 6⟩).2.2 rfl rfl⟩

lemma handler_outbox (s : ServerState) (x : ℕ) (d : JsonValue) :
    (driverLocationHandler s x d).outbox = s.outbox ++ newDeliveries s x d := by
  rw [newDeliveries_eq]
  rfl

lemma outbox_extends_serverRun (inputs : List ServerInput) :
    ∀ s : ServerState, ∃ t, (serverRun s inputs).outbox = s.outbox ++ t := by
  induction inputs with
  | nil =>
    intro s
    exact ⟨[], by simp [serverRun]⟩
  | cons i rest ih =>
    intro s
    obtain ⟨t, ht⟩ := ih (serverStep s i)
    have hstep : ∃ u, (serverStep s i).outbox = s.outbox ++ u := by
      cases i with
      | connect id => exact ⟨[], by simp [serverStep, onConnection]⟩
      | disconnect id => exact ⟨[], by simp [serverStep, onDisconnect]⟩
      | driverLocation o d =>
        exact ⟨newDeliveries s o d, handler_outbox s o d⟩
    obtain ⟨u, hu⟩ := hstep
    refine ⟨u ++ t, ?_⟩
    have hrun : serverRun s (i :: rest) = serverRun (serverStep s i) rest := by
      simp [serverRun]
    rw [hrun, ht, hu, List.append_assoc]

lemma mem_filter_newDeliveries {s : ServerState} {x r : ℕ} {d : JsonValue}
    (hr : r ∈ s.registry) (hrx : r ≠ x) :
    ((r, "driverLocationUpdate", d) : ℕ × String × JsonValue) ∈
      (newDeliveries s x d).filter (fun e => e.1 = r) := by
  rw [newDeliveries_eq, List.mem_filter]
  refine ⟨List.mem_map.mpr ⟨r, List.mem_filter.mpr ⟨hr, by simp [hrx]⟩, rfl⟩, ?_⟩
  simp

lemma sublist_pair_of_mem_append {α : Type} {a b : α} {l1 l2 l3 l4 : List α}
    (ha : a ∈ l2) (hb : b ∈ l4) :
    List.Sublist [a, b] (((l1 ++ l2) ++ l3) ++ l4) := by
  have h1 : List.Sublist [a] l2 := List.singleton_sublist.mpr ha
  have h2 : List.Sublist [b] l4 := List.singleton_sublist.mpr hb
  have ha2 : List.Sublist [a] ((l1 ++ l2) ++ l3) :=
    (h1.trans (List.sublist_append_right l1 l2)).trans
      (List.sublist_append_left (l1 ++ l2) l3)
  exact ha2.append h2

/-- Claim C4. Per-recipient FIFO: if origin `x` sends event `e1`, any other
events are then processed, and `x` sends `e2`, then a recipient `r` that
is connected at both sends observes `e1` before `e2` in its delivery
log. -/
theorem per_recipient_fifo (s : ServerState) (x r : ℕ) (e1 e2 : JsonValue)
    (mid : List ServerInput)
    (hr1 : r ∈ s.registry) (hrx : r ≠ x)
    (hr2 : r ∈ (serverRun (driverLocationHandler s x e1) mid).registry) :
    List.Sublist
      [(r, "driverLocationUpdate", e1), (r, "driverLocationUpdate", e2)]
      ((driverLocationHandler (serverRun (driverLocationHandler s x e1) mid)
          x e2).outbox.filter (fun e => e.1 = r)) := by
  obtain ⟨t, ht⟩ :=
    outbox_extends_serverRun mid (driverLocationHandler s x e1)
  rw [handler_outbox, ht, handler_outbox]
  rw [List.filter_append, List.filter_append, List.filter_append]
  exact sublist_pair_of_mem_append
    (mem_filter_newDeliveries hr1 hrx) (mem_filter_newDeliveries hr2 hrx)

/-- Witness for C4: registry `[0, 1]`, origin `0` sends `num 1` then
`num 2`; recipient `1` observes them in that order. -/
theorem per_recipient_fifo_witness :
    (1 : ℕ) ∈ ([0, 1] : List ℕ) ∧ (1 : ℕ) ≠ 0 ∧
    (1 : ℕ) ∈ (serverRun (driverLocationHandler ⟨[0, 1], []⟩ 0
        (JsonValue.num 1)) []).registry ∧
    List.Sublist
      [(1, "driverLocationUpdate", JsonValue.num 1),
        (1, "driverLocationUpdate", JsonValue.num 2)]
      ((driverLocationHandler (serverRun (driverLocationHandler ⟨[0, 1], []⟩
          0 (JsonValue.num 1)) []) 0 (JsonValue.num 2)).outbox.filter
        (fun e => e.1 = 1)) :=
  ⟨by decide, by decide, by decide,
    per_recipient_fifo ⟨[0, 1], []⟩ 0 1 (JsonValue.num 1) (JsonValue.num 2) []
      (by decide) (by decide) (by decide)⟩

lemma filter_newDeliveries_nil {s : ServerState} {c o : ℕ} {d : JsonValue}
    (hc : c ∉ s.registry) :
    (newDeliveries s o d).filter (fun e => e.1 = c) = [] := by
  rw [newDeliveries_eq, List.filter_eq_nil_iff]
  intro e he
  simp only [List.mem_map, List.mem_filter] at he
  obtain ⟨r, ⟨hr, _⟩, rfl⟩ := he
  simp only [decide_eq_true_eq]
  intro h
  exact hc (h ▸ hr)

lemma deliveriesTo_step_of_not_mem {s : ServerState} {c : ℕ} (i : ServerInput)
    (hc : c ∉ s.registry) (hne : i ≠ ServerInput.connect c) :
    c ∉ (serverStep s i).registry ∧
    deliveriesTo (serverStep s i) c = deliveriesTo s c := by
  cases i with
  | connect id =>
    have hid : id ≠ c := fun h => hne (by rw [h])
    constructor
    · intro hmem
      rcases List.mem_append.mp hmem with h | h
      · exact hc h
      · rw [List.mem_singleton] at h
        exact hid h.symm
    · rfl
  | disconnect id =>
    constructor
    · intro hmem
      exact hc (List.mem_of_mem_filter hmem)
    · rfl
  | driverLocation o d =>
    refine ⟨hc, ?_⟩
    show deliveriesTo (driverLocationHandler s o d) c = deliveriesTo s c
    unfold deliveriesTo
    rw [handler_outbox, List.filter_append, filter_newDeliveries_nil hc,
      List.append_nil]

lemma no_delivery_after_removed (c : ℕ) (inputs : List ServerInput) :
    ∀ s : ServerState, c ∉ s.registry →
      (∀ i ∈ inputs, i ≠ ServerInput.connect c) →
      c ∉ (serverRun s inputs).registry ∧
      deliveriesTo (serverRun s inputs) c = deliveriesTo s c := by
  induction inputs with
  | nil =>
    intro s hc _
    exact ⟨hc, rfl⟩
  | cons i rest ih =>
    intro s hc hno
    have hstep :=
      deliveriesTo_step_of_not_mem i hc (hno i (List.mem_cons_self _ _))
    have hrest := ih (serverStep s i) hstep.1
      (fun j hj => hno j (List.mem_cons_of_mem _ hj))
    have hrun : serverRun s (i :: rest) = serverRun (serverStep s i) rest := by
      simp [serverRun]
    rw [hrun]
    exact ⟨hrest.1, hrest.2.trans hstep.2⟩

/-- Claim C5. Disconnecting a connected client removes it from the
registry: with `N` distinct connections the registry shrinks to exactly
`N - 1`, the disconnected id is gone, and no subsequent traffic that does
not reconnect that id ever delivers anything further to it. -/
theorem disconnect_stops_delivery (s : ServerState) (c : ℕ)
    (hnd : s.registry.Nodup) (hc : c ∈ s.registry) :
    (serverStep s (ServerInput.disconnect c)).registry.length
        = s.registry.length - 1 ∧
    c ∉ (serverStep s (ServerInput.disconnect c)).registry ∧
    ∀ inputs : List ServerInput,
      (∀ i ∈ inputs, i ≠ ServerInput.connect c) →
      deliveriesTo (serverRun (serverStep s (ServerInput.disconnect c))
          inputs) c
        = deliveriesTo (serverStep s (ServerInput.disconnect c)) c := by
  have hcreg : c ∉ (serverStep s (ServerInput.disconnect c)).registry := by
    simp [serverStep, onDisconnect, List.mem_filter]
  refine ⟨?_, hcreg, ?_⟩
  · show (s.registry.filter (· ≠ c)).length = s.registry.length - 1
    exact length_filter_ne_of_nodup hnd hc
  · intro inputs hno
    exact (no_delivery_after_removed c inputs _ hcreg hno).2

/-- Witness for C5: registry `[0, 1]`, client 1 disconnects; a later
driverLocation from client 0 delivers nothing further to 1. -/
theorem disconnect_stops_delivery_witness :
    ([0, 1] : List ℕ).Nodup ∧ (1 : ℕ) ∈ ([0, 1] : List ℕ) ∧
    (∀ i ∈ ([ServerInput.driverLocation 0 JsonValue.null] :
        List ServerInput), i ≠ ServerInput.connect 1) ∧
    deliveriesTo (serverRun (serverStep ⟨[0, 1], []⟩
        (ServerInput.disconnect 1))
        [ServerInput.driverLocation 0 JsonValue.null]) 1
      = deliveriesTo (serverStep ⟨[0, 1], []⟩ (ServerInput.disconnect 1)) 1 :=
  have hno : ∀ i ∈ ([ServerInput.driverLocation 0 JsonValue.null] :
      List ServerInput), i ≠ ServerInput.connect 1 := by
    intro i hi
    rw [List.mem_singleton] at hi
    subst hi
    intro h
    exact ServerInput.noConfusion h
  ⟨by decide, by decide, hno,
    ((disconnect_stops_delivery ⟨[0, 1], []⟩ 1 (by decide) (by decide)).2.2)
      [ServerInput.driverLocation 0 JsonValue.null] hno⟩
